import Mathlib

/-!
# Ethereum receipt Merkle-proof verifier — verification development

Shallow embedding of the reference implementation (src/main.rs) of the
eth-receipt-merkle-verifier repository, and proofs of the specified
properties of its core: the sorted-pair Keccak-256 Merkle proof check
(`verify_merkle_proof`), the receipt-fetch pipeline
(`verify_receipt_proof`), the proof-text parser, and the driver
(`mainModel`).

Bytes are `Nat` values below 256, 32-byte hashes are `List Nat` of
length 32 (`Hash256`), and Keccak-256 is embedded in full
(`keccak256`, validated against the standard test vectors, e.g.
Keccak-256 of the empty string is c5d24601...).  Effectful code is
embedded by explicit state passing: the chain node is a record of
response functions (`Provider`), fallible steps return `Except`, and
each provider call or hash invocation of the pipeline is additionally
recorded in an event trace (`Ev`) so that claims of the form
"X happens before Y" / "Z is never invoked" are statable.
-/

set_option maxRecDepth 100000

namespace EthReceiptVerifier

/-! ## Keccak-256 (the sha3 crate dependency of src/main.rs, lines 5, 54, 63, 86) -/

/-- Rotate a 64-bit lane left by `n` bits (0 ≤ n < 64). -/
def rotl64 (x n : Nat) : Nat :=
  ((x <<< n) ||| (x >>> (64 - n))) % (2 ^ 64)

/-- Keccak rho rotation offsets, indexed by flat lane position x + 5 * y. -/
def rhoOffsets : List Nat :=
  [0, 1, 62, 28, 27] ++ [36, 44, 6, 55, 20] ++ [3, 10, 43, 25, 39] ++
    [41, 45, 15, 21, 8] ++ [18, 2, 61, 56, 14]

/-- Keccak-f[1600] round constants. -/
def roundConstants : List Nat :=
  [0x0000000000000001, 0x0000000000008082, 0x800000000000808a, 0x8000000080008000,
   0x000000000000808b, 0x0000000080000001, 0x8000000080008081, 0x8000000000008009,
   0x000000000000008a, 0x0000000000000088, 0x0000000080008009, 0x000000008000000a,
   0x000000008000808b, 0x800000000000008b, 0x8000000000008089, 0x8000000000008003,
   0x8000000000008002, 0x8000000000000080, 0x000000000000800a, 0x800000008000000a,
   0x8000000080008081, 0x8000000000008080, 0x0000000080000001, 0x8000000080008008]

/-- Keccak theta step on a 25-lane state. -/
def theta (st : List Nat) : List Nat :=
  let c := (List.range 5).map fun x =>
    st.getD x 0 ^^^ st.getD (x + 5) 0 ^^^ st.getD (x + 10) 0 ^^^ st.getD (x + 15) 0 ^^^
      st.getD (x + 20) 0
  let d := (List.range 5).map fun x =>
    c.getD ((x + 4) % 5) 0 ^^^ rotl64 (c.getD ((x + 1) % 5) 0) 1
  (List.range 25).map fun i => st.getD i 0 ^^^ d.getD (i % 5) 0

/-- Keccak rho and pi steps combined: lane (x, y) receives the rotated lane (x + 3y, x). -/
def rhoPi (st : List Nat) : List Nat :=
  (List.range 25).map fun i =>
    let x := i % 5
    let y := i / 5
    let j := (x + 3 * y) % 5 + 5 * x
    rotl64 (st.getD j 0) (rhoOffsets.getD j 0)

/-- Keccak chi step; lane complement is XOR with the 64-bit all-ones mask. -/
def chi (st : List Nat) : List Nat :=
  (List.range 25).map fun i =>
    let x := i % 5
    let y := i / 5
    st.getD i 0 ^^^ ((st.getD ((x + 1) % 5 + 5 * y) 0 ^^^ (2 ^ 64 - 1)) &&&
      st.getD ((x + 2) % 5 + 5 * y) 0)

/-- One Keccak-f round: theta, rho, pi, chi, then iota with round constant `rc`. -/
def keccakRound (st : List Nat) (rc : Nat) : List Nat :=
  let st' := chi (rhoPi (theta st))
  st'.set 0 (st'.getD 0 0 ^^^ rc)

/-- The Keccak-f[1600] permutation: 24 rounds. -/
def keccakF (st : List Nat) : List Nat :=
  roundConstants.foldl keccakRound st

/-- Pack bytes into 64-bit lanes, little-endian within each lane. -/
def toLanes : List Nat → List Nat
  | b0 :: b1 :: b2 :: b3 :: b4 :: b5 :: b6 :: b7 :: rest =>
      (b0 + 256 * (b1 + 256 * (b2 + 256 * (b3 + 256 * (b4 + 256 * (b5 + 256 * (b6 + 256 * b7))))))) ::
        toLanes rest
  | [] => []
  | l => [l.foldr (fun b acc => b + 256 * acc) 0]

/-- The 8 bytes of a 64-bit lane, little-endian. -/
def laneBytes (x : Nat) : List Nat :=
  [x % 256, x / 256 % 256, x / 256 ^ 2 % 256, x / 256 ^ 3 % 256,
   x / 256 ^ 4 % 256, x / 256 ^ 5 % 256, x / 256 ^ 6 % 256, x / 256 ^ 7 % 256]

/-- All bytes of the state, lane by lane. -/
def stateBytes (st : List Nat) : List Nat :=
  (st.map laneBytes).flatten

/-- Keccak (pre-SHA3) pad10*1 padding to a 136-byte rate multiple, for a message
of `len` bytes: domain byte 0x01, zero fill, final bit 0x80. -/
def padKeccak (len : Nat) : List Nat :=
  let padLen := 136 - len % 136
  if padLen = 1 then [0x81]
  else 0x01 :: (List.replicate (padLen - 2) 0 ++ [0x80])

/-- XOR a 17-lane (136-byte rate) block into the first 17 lanes of the state. -/
def xorIntoState (st blockLanes : List Nat) : List Nat :=
  (List.range 25).map fun i =>
    if i < 17 then st.getD i 0 ^^^ blockLanes.getD i 0 else st.getD i 0

/-- Absorb `n` rate-sized blocks of the padded message, permuting after each. -/
def absorbBlocks : Nat → List Nat → List Nat → List Nat
  | 0, _, st => st
  | n + 1, msg, st =>
      absorbBlocks n (msg.drop 136) (keccakF (xorIntoState st (toLanes (msg.take 136))))

/-- Keccak-256 of a byte string: rate 1088, capacity 512, 32-byte digest.
This is the hash the source invokes as Keccak256::digest. -/
def keccak256 (msg : List Nat) : List Nat :=
  let padded := msg ++ padKeccak msg.length
  let final := absorbBlocks (padded.length / 136) padded (List.replicate 25 0)
  (stateBytes final).take 32

/-! ## Data model -/

/-- A 32-byte digest (the H256 of the source), as its list of byte values. -/
abbrev Hash256 := List Nat

/-- Lexicographic byte-string comparison: the derived Ord on the H256 inner
byte array, used by the source as current < *sibling (line 78). -/
def bytesLt : List Nat → List Nat → Bool
  | [], [] => false
  | [], _ :: _ => true
  | _ :: _, [] => false
  | a :: as, b :: bs => if a < b then true else if b < a then false else bytesLt as bs

/-- A fetched transaction receipt, modelled by the byte string of its
to_string rendering (the only use the source makes of it, line 54). -/
structure Receipt where
  to_string : List Nat
deriving DecidableEq

/-- A failed provider RPC call (the error the ? operator propagates on
lines 42 and 49). -/
inductive RpcError where
  | unreachable
  | timeout
deriving DecidableEq

/-- The chain node behind ethers Provider of Http: responses for the two
RPC calls the source makes.  A block is modelled by its receipts_root,
the only field the source reads (line 45). -/
structure Provider where
  getBlock : Nat → Except RpcError (Option Hash256)
  getTransactionReceipt : Hash256 → Except RpcError (Option Receipt)

/-- The MerkleVerifier struct of src/main.rs, lines 29-31. -/
structure MerkleVerifier where
  provider : Provider

/-- Pipeline errors of verify_receipt_proof: a network failure or the two
anyhow not-found errors (lines 43, 50). -/
inductive VErr where
  | network (e : RpcError)
  | blockNotFound (block_number : Nat)
  | receiptNotFound (tx_hash : Hash256)
deriving DecidableEq

/-- Observable events of one run, in order: the two provider calls, the
receipt-string hash (line 54), the leaf hash (line 63), and entry into
verify_merkle_proof (line 65). -/
inductive Ev where
  | fetchBlock
  | fetchReceipt
  | hashReceiptString
  | hashLeaf
  | runMerkleVerify
deriving DecidableEq

/-! ## The core verifier (src/main.rs, lines 73-91) -/

/-- The loop of verify_merkle_proof: the mutable current threaded through the
for loop over proof; each step concatenates in sorted order and re-hashes
(lines 76-88). -/
def verifyLoop : Hash256 → List Hash256 → Hash256
  | current, [] => current
  | current, sibling :: rest =>
      verifyLoop
        (keccak256 (if bytesLt current sibling then current ++ sibling else sibling ++ current))
        rest

/-- verify_merkle_proof of src/main.rs, lines 73-91: fold the sorted-pair
combination over the proof and compare the final value to root. -/
def verify_merkle_proof (_self : MerkleVerifier) (leaf : Hash256) (proof : List Hash256)
    (root : Hash256) : Bool :=
  verifyLoop leaf proof == root

/-! ## The pipeline (src/main.rs, lines 41-71) -/

/-- get_block_receipts_root of src/main.rs, lines 41-46: fetch the block,
error if the call fails or the block is absent, else its receipts_root. -/
def get_block_receipts_root (self : MerkleVerifier) (block_number : Nat) :
    Except VErr Hash256 × List Ev :=
  match self.provider.getBlock block_number with
  | .error e => (.error (.network e), [.fetchBlock])
  | .ok none => (.error (.blockNotFound block_number), [.fetchBlock])
  | .ok (some receipts_root) => (.ok receipts_root, [.fetchBlock])

/-- The receipt_data the source computes on line 54: Keccak-256 of the
receipt's to_string rendering — its placeholder canonicalization. -/
def receipt_data (receipt : Receipt) : List Nat :=
  keccak256 receipt.to_string

/-- get_receipt of src/main.rs, lines 48-57: fetch the receipt, error if the
call fails or the receipt is absent, else hash its string rendering. -/
def get_receipt (self : MerkleVerifier) (tx_hash : Hash256) :
    Except VErr (List Nat) × List Ev :=
  match self.provider.getTransactionReceipt tx_hash with
  | .error e => (.error (.network e), [.fetchReceipt])
  | .ok none => (.error (.receiptNotFound tx_hash), [.fetchReceipt])
  | .ok (some receipt) => (.ok (receipt_data receipt), [.fetchReceipt, .hashReceiptString])

/-- verify_receipt_proof of src/main.rs, lines 59-71: root, then receipt,
then leaf := Keccak-256 of receipt_data (line 63), then the Merkle check. -/
def verify_receipt_proof (self : MerkleVerifier) (block_number : Nat) (tx_hash : Hash256)
    (proof : List Hash256) : Except VErr Bool × List Ev :=
  match get_block_receipts_root self block_number with
  | (.error e, evs1) => (.error e, evs1)
  | (.ok receipts_root, evs1) =>
    match get_receipt self tx_hash with
    | (.error e, evs2) => (.error e, evs1 ++ evs2)
    | (.ok rdata, evs2) =>
      let receipt_hash := keccak256 rdata
      let is_valid := verify_merkle_proof self receipt_hash proof receipts_root
      (.ok is_valid, evs1 ++ evs2 ++ [.hashLeaf, .runMerkleVerify])

/-! ## Proof parsing and the driver (src/main.rs, lines 94-152) -/

/-- A hex digit, as accepted by H256 parsing. -/
def isHexChar (c : Char) : Bool :=
  ('0' ≤ c && c ≤ '9') || ('a' ≤ c && c ≤ 'f') || ('A' ≤ c && c ≤ 'F')

/-- Value of a hex digit. -/
def hexVal (c : Char) : Nat :=
  if '0' ≤ c && c ≤ '9' then c.toNat - '0'.toNat
  else if 'a' ≤ c && c ≤ 'f' then c.toNat - 'a'.toNat + 10
  else if 'A' ≤ c && c ≤ 'F' then c.toNat - 'A'.toNat + 10
  else 0

/-- Decode consecutive hex-digit pairs into bytes. -/
def hexPairsToBytes : List Char → List Nat
  | c1 :: c2 :: rest => (hexVal c1 * 16 + hexVal c2) :: hexPairsToBytes rest
  | _ => []

/-- H256 from_str of the fixed-hash crate, as the source calls it on lines
117 and 127: an optional 0x prefix, then exactly 64 hex digits, decoded
big-endian into 32 bytes; anything else is a parse error. -/
def h256FromStr (s : List Char) : Except Unit Hash256 :=
  let t := match s with
    | '0' :: 'x' :: rest => rest
    | _ => s
  if t.length == 64 && t.all isHexChar then .ok (hexPairsToBytes t) else .error ()

/-- Rust str split on a comma: the token list, keeping empty tokens. -/
def splitComma : List Char → List (List Char)
  | [] => [[]]
  | ',' :: rest => [] :: splitComma rest
  | c :: rest =>
    match splitComma rest with
    | [] => [[c]]
    | t :: ts => (c :: t) :: ts

/-- Rust str trim: drop whitespace from both ends. -/
def trimChars (l : List Char) : List Char :=
  ((l.dropWhile Char.isWhitespace).reverse.dropWhile Char.isWhitespace).reverse

/-- Rust collect of an iterator of Results into Result of Vec: the list of
values, or the first error. -/
def collectTokens : List (Except Unit Hash256) → Except Unit (List Hash256)
  | [] => .ok []
  | .error e :: _ => .error e
  | .ok h :: rest => (collectTokens rest).map (h :: ·)

/-- The proof parsing of main, src/main.rs lines 126-134: split the proof
text on commas, trim and H256-parse every token, first failure wins. -/
def parseProof (text : List Char) : Except Unit (List Hash256) :=
  collectTokens ((splitComma text).map fun s => h256FromStr (trimChars s))

/-- The command-line arguments of src/main.rs, lines 10-27; the two textual
inputs are byte strings of characters. -/
structure Args where
  rpc_url : Option (List Char)
  block : Nat
  tx_hash : List Char
  proof : List Char

/-- The process environment main reads: the ETH_RPC_URL variable, and the
connect capability modelling Provider try_from of an RPC URL (line 35) —
URL parsing only, no network. -/
structure Env where
  eth_rpc_url : Option (List Char)
  connect : List Char → Option Provider

/-- The error exits of main: missing RPC URL (line 111), provider
construction failure (line 114), invalid transaction hash (line 121),
invalid proof format (line 132), or a propagated pipeline error (line 147). -/
inductive MainErr where
  | noRpcUrl
  | invalidRpcUrl
  | invalidTxHash
  | invalidProofFormat
  | pipeline (e : VErr)
deriving DecidableEq

/-- main of src/main.rs, lines 94-152: resolve the RPC URL, build the
verifier, parse the transaction hash, parse the proof, run the pipeline;
Ok(true) and Ok(false) both end in Ok(()), a pipeline error is returned. -/
def mainModel (args : Args) (env : Env) : Except MainErr Unit × List Ev :=
  match args.rpc_url.orElse (fun _ => env.eth_rpc_url) with
  | none => (.error .noRpcUrl, [])
  | some rpc_url =>
    match env.connect rpc_url with
    | none => (.error .invalidRpcUrl, [])
    | some provider =>
      match h256FromStr args.tx_hash with
      | .error _ => (.error .invalidTxHash, [])
      | .ok tx_hash =>
        match parseProof args.proof with
        | .error _ => (.error .invalidProofFormat, [])
        | .ok proof =>
          match verify_receipt_proof ⟨provider⟩ args.block tx_hash proof with
          | (.ok _, evs) => (.ok (), evs)
          | (.error e, evs) => (.error (.pipeline e), evs)

/-! ## Spec-side definitions

Definitions below follow the wording of the specification, for comparison
with the source embedding above. -/

/-- Modelled from the spec (section 4.1): one combination step of the fold —
"concatenate the lexicographically smaller value first and the larger
second (64 bytes total); hash the concatenation with Keccak-256". -/
def specStep (current sibling : Hash256) : Hash256 :=
  if bytesLt sibling current then keccak256 (sibling ++ current)
  else keccak256 (current ++ sibling)

/-- Modelled from the spec (section 4.1): initialize current with the leaf,
fold the combination step over the proof in order, and compare the final
current to the root byte for byte. -/
def spec_verify (leaf : Hash256) (proof : List Hash256) (root : Hash256) : Bool :=
  proof.foldl specStep leaf == root

/-- Modelled from the spec (section 8): the root honestly constructed by
repeatedly applying the sorted-pair combination rule to the leaf. -/
def honestRoot (leaf : Hash256) (siblings : List Hash256) : Hash256 :=
  siblings.foldl specStep leaf

/-- Big-endian minimal byte string of `n` with recursion fuel (enough for any
value below 2 ^ 128, far above every length or field used here). -/
def beBytesAux : Nat → Nat → List Nat
  | 0, _ => []
  | _ + 1, 0 => []
  | fuel + 1, n => beBytesAux fuel (n / 256) ++ [n % 256]

/-- Big-endian minimal byte string of a natural number (empty for 0), the
integer encoding RLP uses. -/
def beBytes (n : Nat) : List Nat :=
  beBytesAux 16 n

/-- Modelled from the spec (section 4.2): the RLP length prefix — one tag
byte for payloads of at most 55 bytes, otherwise a tag byte followed by
the big-endian payload length. -/
def rlpHeader (base len : Nat) : List Nat :=
  if len ≤ 55 then [base + len]
  else (base + 55 + (beBytes len).length) :: beBytes len

/-- Modelled from the spec (section 4.2): RLP encoding of a byte string — a
single byte below 0x80 is its own encoding, otherwise a 0x80-based length
prefix followed by the bytes. -/
def rlpBytes (bs : List Nat) : List Nat :=
  match bs with
  | [b] => if b < 0x80 then [b] else rlpHeader 0x80 1 ++ [b]
  | _ => rlpHeader 0x80 bs.length ++ bs

/-- Modelled from the spec (section 4.2): RLP encoding of a list with the
given encoded payload — a 0xc0-based length prefix followed by the payload. -/
def rlpListPayload (payload : List Nat) : List Nat :=
  rlpHeader 0xc0 payload.length ++ payload

/-- Modelled from the spec (section 3): one log entry of a receipt —
address, topics, data. -/
structure LogEntry where
  address : List Nat
  topics : List (List Nat)
  data : List Nat

/-- Modelled from the spec (section 4.2): RLP encoding of a log entry as the
list [address, topics, data]. -/
def rlpLog (l : LogEntry) : List Nat :=
  rlpListPayload (rlpBytes l.address ++ rlpListPayload ((l.topics.map rlpBytes).flatten) ++
    rlpBytes l.data)

/-- Modelled from the spec (sections 3 and 4.2): the receipt fields the
canonical encoding covers — status, cumulative gas used, logs bloom
(256 bytes), ordered log entries. -/
structure SpecReceipt where
  status : Nat
  cumulativeGasUsed : Nat
  logsBloom : List Nat
  logs : List LogEntry

/-- Modelled from the spec (section 4.2): the on-chain binary serialization
of a receipt — the RLP encoding of the ordered field list status,
cumulative gas used, logs bloom, log entries. -/
def rlpReceipt (r : SpecReceipt) : List Nat :=
  rlpListPayload (rlpBytes (beBytes r.status) ++ rlpBytes (beBytes r.cumulativeGasUsed) ++
    rlpBytes r.logsBloom ++ rlpListPayload ((r.logs.map rlpLog).flatten))

/-- The simplest receipt: success status, 21000 gas, empty bloom, no logs. -/
def exampleReceipt : SpecReceipt :=
  ⟨1, 21000, List.replicate 256 0, []⟩

/-! ## Helper lemmas -/

theorem bytesLt_asymm : ∀ a b : List Nat, bytesLt a b = true → bytesLt b a = false := by
  intro a
  induction a with
  | nil =>
    intro b h
    cases b with
    | nil => simp [bytesLt] at h
    | cons y ys => simp [bytesLt]
  | cons x xs ih =>
    intro b h
    cases b with
    | nil => simp [bytesLt] at h
    | cons y ys =>
      simp only [bytesLt] at h ⊢
      by_cases hxy : x < y
      · simp [hxy, Nat.lt_asymm hxy]
      · by_cases hyx : y < x
        · simp [hxy, hyx] at h
        · simp only [if_neg hxy, if_neg hyx] at h ⊢
          exact ih ys h

theorem bytesLt_eq_of_not_lt :
    ∀ a b : List Nat, bytesLt a b = false → bytesLt b a = false → a = b := by
  intro a
  induction a with
  | nil =>
    intro b hab hba
    cases b with
    | nil => rfl
    | cons y ys => simp [bytesLt] at hab
  | cons x xs ih =>
    intro b hab hba
    cases b with
    | nil => simp [bytesLt] at hba
    | cons y ys =>
      simp only [bytesLt] at hab hba
      by_cases hxy : x < y
      · simp [hxy] at hab
      · by_cases hyx : y < x
        · simp [hyx] at hba
        · have hx : x = y := Nat.le_antisymm (Nat.le_of_not_lt hyx) (Nat.le_of_not_lt hxy)
          simp only [if_neg hxy, if_neg hyx] at hab
          simp only [if_neg hyx, if_neg hxy] at hba
          rw [hx, ih ys hab hba]

/-- The inline combination of the source loop equals the spec's smaller-first
combination step. -/
theorem sourceStep_eq_specStep (c s : Hash256) :
    keccak256 (if bytesLt c s then c ++ s else s ++ c) = specStep c s := by
  unfold specStep
  cases hcs : bytesLt c s with
  | true =>
    have hsc : bytesLt s c = false := bytesLt_asymm c s hcs
    simp [hcs, hsc]
  | false =>
    cases hsc : bytesLt s c with
    | true => simp [hcs, hsc]
    | false =>
      have : c = s := bytesLt_eq_of_not_lt c s hcs hsc
      subst this
      simp [hcs]

/-- The source loop is the left fold of the spec's combination step. -/
theorem verifyLoop_eq_foldl :
    ∀ (proof : List Hash256) (current : Hash256),
      verifyLoop current proof = proof.foldl specStep current := by
  intro proof
  induction proof with
  | nil => intro current; rfl
  | cons s rest ih =>
    intro current
    show verifyLoop (keccak256 (if bytesLt current s then current ++ s else s ++ current)) rest =
      List.foldl specStep (specStep current s) rest
    rw [sourceStep_eq_specStep, ih]

/-! ## Concrete fixtures -/

/-- The 32-byte value with every byte equal to `b`. -/
def rep (b : Nat) : Hash256 := List.replicate 32 b

/-- A chain node that knows no blocks and no receipts. -/
def dummyProvider : Provider := ⟨fun _ => .ok none, fun _ => .ok none⟩

/-- A verifier over `dummyProvider`. -/
def dummyVerifier : MerkleVerifier := ⟨dummyProvider⟩

/-- A chain node whose every call times out. -/
def altProvider : Provider := ⟨fun _ => .error .timeout, fun _ => .error .timeout⟩

/-- A verifier over `altProvider`. -/
def altVerifier : MerkleVerifier := ⟨altProvider⟩

/-! ## Claims about the core verifier -/

/-- C1: verify_merkle_proof equals the spec's fold — start from the leaf,
and for each sibling in proof order hash the lexicographically sorted
concatenation with Keccak-256, comparing the final value to the root —
and in particular Scenario B holds: for leaf 0xAA..AA and sibling
0xBB..BB (leaf < sibling byte-wise), the one-element proof [sibling]
verifies against Keccak256(leaf ++ sibling). -/
theorem C1_verify_is_sorted_pair_fold :
    (∀ (v : MerkleVerifier) (leaf : Hash256) (proof : List Hash256) (root : Hash256),
        verify_merkle_proof v leaf proof root = spec_verify leaf proof root)
    ∧ verify_merkle_proof dummyVerifier (rep 0xAA) [rep 0xBB]
        (keccak256 (rep 0xAA ++ rep 0xBB)) = true := by
  constructor
  · intro v leaf proof root
    unfold verify_merkle_proof spec_verify
    rw [verifyLoop_eq_foldl]
  · have hlt : bytesLt (rep 0xAA) (rep 0xBB) = true := by decide
    simp [verify_merkle_proof, verifyLoop, hlt]

/-- C3: with an empty proof, verification succeeds exactly on byte equality
of leaf and root — verify(L, [], L) is true, and verify(L, [], R) is
false whenever R differs from L. -/
theorem C3_empty_proof_iff_equal :
    ∀ (v : MerkleVerifier) (L R : Hash256),
      verify_merkle_proof v L [] L = true ∧
      (R ≠ L → verify_merkle_proof v L [] R = false) := by
  intro v L R
  constructor
  · simp [verify_merkle_proof, verifyLoop]
  · intro h
    simp only [verify_merkle_proof, verifyLoop]
    exact beq_eq_false_iff_ne.mpr fun hh => h hh.symm

theorem C3_witness :
    rep 0xBB ≠ rep 0xAA ∧
    verify_merkle_proof dummyVerifier (rep 0xAA) [] (rep 0xAA) = true ∧
    verify_merkle_proof dummyVerifier (rep 0xAA) [] (rep 0xBB) = false :=
  ⟨by decide, (C3_empty_proof_iff_equal dummyVerifier (rep 0xAA) (rep 0xBB)).1,
   (C3_empty_proof_iff_equal dummyVerifier (rep 0xAA) (rep 0xBB)).2 (by decide)⟩

/-- C4: for every leaf and sibling list, the root honestly constructed by
folding the sorted-pair combination rule over the siblings starting from
the leaf is accepted by verify_merkle_proof. -/
theorem C4_honest_root_verifies :
    ∀ (v : MerkleVerifier) (leaf : Hash256) (proof : List Hash256),
      verify_merkle_proof v leaf proof (honestRoot leaf proof) = true := by
  intro v leaf proof
  unfold verify_merkle_proof honestRoot
  rw [verifyLoop_eq_foldl]
  exact beq_self_eq_true _

/-- C8: verification is a pure, deterministic function of leaf, proof and
root — the result is independent of the verifier's provider state, and
identical inputs always yield the identical boolean. -/
theorem C8_pure_and_deterministic :
    ∀ (v₁ v₂ : MerkleVerifier) (l₁ l₂ : Hash256) (p₁ p₂ : List Hash256) (r₁ r₂ : Hash256),
      l₁ = l₂ → p₁ = p₂ → r₁ = r₂ →
      verify_merkle_proof v₁ l₁ p₁ r₁ = verify_merkle_proof v₂ l₂ p₂ r₂ := by
  intro v₁ v₂ l₁ l₂ p₁ p₂ r₁ r₂ hl hp hr
  subst hl; subst hp; subst hr
  rfl

theorem C8_witness :
    rep 0x01 = rep 0x01 ∧ ([rep 0x02] : List Hash256) = [rep 0x02] ∧ rep 0x03 = rep 0x03 ∧
    verify_merkle_proof dummyVerifier (rep 0x01) [rep 0x02] (rep 0x03) =
      verify_merkle_proof altVerifier (rep 0x01) [rep 0x02] (rep 0x03) :=
  ⟨rfl, rfl, rfl,
   C8_pure_and_deterministic dummyVerifier altVerifier _ _ _ _ _ _ rfl rfl rfl⟩

/-- C9: verify_merkle_proof is sensitive to proof order — there are a leaf,
a two-element proof of distinct siblings, and a root accepted in the
given order but rejected when the sibling list is reversed. -/
theorem C9_reversal_flips_result :
    ∃ (leaf s₁ s₂ root : Hash256),
      s₁ ≠ s₂ ∧
      verify_merkle_proof dummyVerifier leaf [s₁, s₂] root = true ∧
      verify_merkle_proof dummyVerifier leaf (List.reverse [s₁, s₂]) root = false := by
  refine ⟨rep 0x11, rep 0x22, rep 0x33, honestRoot (rep 0x11) [rep 0x22, rep 0x33],
    by decide, ?_, ?_⟩
  · unfold verify_merkle_proof honestRoot
    rw [verifyLoop_eq_foldl]
    exact beq_self_eq_true _
  · decide

/-! ## Claim about canonicalization -/

/-- Any Keccak-256 digest has at most 32 bytes. -/
theorem keccak256_length_le (msg : List Nat) : (keccak256 msg).length ≤ 32 := by
  unfold keccak256
  exact List.length_take_le 32 _

/-- C2 (refuted on the code): get_receipt's leaf preimage is receipt_data —
Keccak-256 of the receipt's string rendering, the placeholder of line 54
— and that preimage is never the RLP serialization of a receipt field
list as the spec mandates: even for the simplest receipt (status 1,
gas 21000, empty bloom, no logs) the RLP encoding is 267 bytes while
receipt_data has at most 32. -/
theorem C2_placeholder_is_not_rlp :
    (∀ (gb : Nat → Except RpcError (Option Hash256)) (tx : Hash256) (r : Receipt),
        (get_receipt ⟨⟨gb, fun _ => .ok (some r)⟩⟩ tx).1 = .ok (receipt_data r))
    ∧ (∀ r : Receipt, receipt_data r ≠ rlpReceipt exampleReceipt) := by
  constructor
  · intro gb tx r
    rfl
  · intro r h
    have hlen := congrArg List.length h
    have h32 : (receipt_data r).length ≤ 32 := keccak256_length_le r.to_string
    have h267 : (rlpReceipt exampleReceipt).length = 267 := by decide
    rw [hlen, h267] at h32
    omega

/-! ## Claims about the pipeline and the driver -/

/-- collectTokens fails as soon as some element is an error. -/
theorem collectTokens_error :
    ∀ l : List (Except Unit Hash256), (∃ x ∈ l, x = .error ()) → collectTokens l = .error () := by
  intro l
  induction l with
  | nil =>
    rintro ⟨x, hx, hxe⟩
    cases hx
  | cons a rest ih =>
    rintro ⟨x, hx, hxe⟩
    subst hxe
    rcases List.mem_cons.mp hx with h | h
    · rw [← h]
      rfl
    · cases a with
      | error e => cases e; rfl
      | ok v =>
        show (collectTokens rest).map (v :: ·) = .error ()
        rw [ih ⟨_, h, rfl⟩]
        rfl

/-- C5: a comma-separated token that is not a well-formed 32-byte hash
literal makes proof parsing fail; main then stops with the
invalid-proof-format error and an empty event trace — the verifier is
never invoked and no provider call (network access) is ever made. -/
theorem C5_malformed_proof_fails_before_network :
    (∀ text : List Char,
        (∃ tok ∈ splitComma text, h256FromStr (trimChars tok) = .error ()) →
        parseProof text = .error ())
    ∧ (∀ (args : Args) (env : Env) (url : List Char) (p : Provider) (tx : Hash256),
        args.rpc_url.orElse (fun _ => env.eth_rpc_url) = some url →
        env.connect url = some p →
        h256FromStr args.tx_hash = .ok tx →
        parseProof args.proof = .error () →
        mainModel args env = (.error .invalidProofFormat, [])) := by
  constructor
  · rintro text ⟨tok, hmem, herr⟩
    unfold parseProof
    exact collectTokens_error _ ⟨h256FromStr (trimChars tok),
      List.mem_map_of_mem _ hmem, herr⟩
  · intro args env url p tx h1 h2 h3 h4
    simp [mainModel, h1, h2, h3, h4]

/-- The malformed proof text of Scenario C: the single token zz. -/
def zzChars : List Char := ['z', 'z']

/-- A well-formed hash literal: 64 zero hex digits, decoding to rep 0. -/
def zeros64 : List Char := List.replicate 64 '0'

/-- Arguments whose proof text is the malformed token zz. -/
def argsC5 : Args := ⟨some ['u'], 0, zeros64, zzChars⟩

/-- An environment that builds `dummyProvider` for any URL. -/
def envC5 : Env := ⟨none, fun _ => some dummyProvider⟩

theorem C5_witness :
    (∃ tok ∈ splitComma zzChars, h256FromStr (trimChars tok) = .error ()) ∧
    parseProof zzChars = .error () ∧
    argsC5.rpc_url.orElse (fun _ => envC5.eth_rpc_url) = some ['u'] ∧
    envC5.connect ['u'] = some dummyProvider ∧
    h256FromStr argsC5.tx_hash = .ok (rep 0) ∧
    mainModel argsC5 envC5 = (.error .invalidProofFormat, []) := by
  have hbad : (∃ tok ∈ splitComma zzChars, h256FromStr (trimChars tok) = .error ()) :=
    ⟨zzChars, by decide, rfl⟩
  have hparse : parseProof zzChars = .error () :=
    C5_malformed_proof_fails_before_network.1 zzChars hbad
  exact ⟨hbad, hparse, rfl, rfl, rfl,
    C5_malformed_proof_fails_before_network.2 argsC5 envC5 ['u'] dummyProvider (rep 0)
      rfl rfl rfl hparse⟩

/-- C6: a not-found block or receipt aborts verify_receipt_proof with the
matching not-found error; with a missing receipt the trace holds only
the two fetch events — no receipt hashing, no leaf hashing, and no
invocation of the Merkle verifier. -/
theorem C6_not_found_aborts :
    ∀ (v : MerkleVerifier) (bn : Nat) (tx : Hash256) (proof : List Hash256),
      (v.provider.getBlock bn = .ok none →
        verify_receipt_proof v bn tx proof = (.error (.blockNotFound bn), [.fetchBlock])) ∧
      (∀ root : Hash256, v.provider.getBlock bn = .ok (some root) →
        v.provider.getTransactionReceipt tx = .ok none →
        verify_receipt_proof v bn tx proof =
          (.error (.receiptNotFound tx), [.fetchBlock, .fetchReceipt]) ∧
        Ev.hashReceiptString ∉ (verify_receipt_proof v bn tx proof).2 ∧
        Ev.hashLeaf ∉ (verify_receipt_proof v bn tx proof).2 ∧
        Ev.runMerkleVerify ∉ (verify_receipt_proof v bn tx proof).2) := by
  intro v bn tx proof
  constructor
  · intro hb
    simp [verify_receipt_proof, get_block_receipts_root, hb]
  · intro root hb hr
    have hmain : verify_receipt_proof v bn tx proof =
        (.error (.receiptNotFound tx), [.fetchBlock, .fetchReceipt]) := by
      simp [verify_receipt_proof, get_block_receipts_root, get_receipt, hb, hr]
    refine ⟨hmain, ?_, ?_, ?_⟩ <;> rw [hmain] <;> simp

/-- A chain node that knows the block but not the receipt. -/
def noReceiptProvider : Provider := ⟨fun _ => .ok (some (rep 0)), fun _ => .ok none⟩

/-- A verifier over `noReceiptProvider`. -/
def noReceiptVerifier : MerkleVerifier := ⟨noReceiptProvider⟩

theorem C6_witness :
    dummyVerifier.provider.getBlock 7 = .ok none ∧
    noReceiptVerifier.provider.getBlock 7 = .ok (some (rep 0)) ∧
    noReceiptVerifier.provider.getTransactionReceipt (rep 1) = .ok none ∧
    verify_receipt_proof dummyVerifier 7 (rep 1) [] =
      (.error (.blockNotFound 7), [.fetchBlock]) ∧
    verify_receipt_proof noReceiptVerifier 7 (rep 1) [] =
      (.error (.receiptNotFound (rep 1)), [.fetchBlock, .fetchReceipt]) :=
  ⟨rfl, rfl, rfl,
   (C6_not_found_aborts dummyVerifier 7 (rep 1) []).1 rfl,
   ((C6_not_found_aborts noReceiptVerifier 7 (rep 1) []).2 (rep 0) rfl rfl).1⟩

/-- C7: a completed verification run is success regardless of the boolean —
when the pipeline returns Ok false, main still returns Ok () — and a
failing main run always stems from a missing RPC URL, a provider that
cannot be built, an unparsable transaction hash or proof text, or a
pipeline (network / not-found) error. -/
theorem C7_false_verdict_is_success :
    (∀ (args : Args) (env : Env) (url : List Char) (p : Provider) (tx : Hash256)
        (proof : List Hash256),
        args.rpc_url.orElse (fun _ => env.eth_rpc_url) = some url →
        env.connect url = some p →
        h256FromStr args.tx_hash = .ok tx →
        parseProof args.proof = .ok proof →
        (verify_receipt_proof ⟨p⟩ args.block tx proof).1 = .ok false →
        (mainModel args env).1 = .ok ())
    ∧ (∀ (args : Args) (env : Env), (mainModel args env).1 ≠ .ok () →
        args.rpc_url.orElse (fun _ => env.eth_rpc_url) = none
        ∨ (∃ url, args.rpc_url.orElse (fun _ => env.eth_rpc_url) = some url ∧
            env.connect url = none)
        ∨ h256FromStr args.tx_hash = .error ()
        ∨ parseProof args.proof = .error ()
        ∨ (∃ url p tx proof e,
            args.rpc_url.orElse (fun _ => env.eth_rpc_url) = some url ∧
            env.connect url = some p ∧
            h256FromStr args.tx_hash = .ok tx ∧
            parseProof args.proof = .ok proof ∧
            (verify_receipt_proof ⟨p⟩ args.block tx proof).1 = .error e)) := by
  constructor
  · intro args env url p tx proof h1 h2 h3 h4 h5
    rcases hv : verify_receipt_proof ⟨p⟩ args.block tx proof with ⟨res, evs⟩
    rw [hv] at h5
    change res = Except.ok false at h5
    subst h5
    simp [mainModel, h1, h2, h3, h4, hv]
  · intro args env hne
    cases hu : args.rpc_url.orElse (fun _ => env.eth_rpc_url) with
    | none => exact Or.inl rfl
    | some url =>
      cases hc : env.connect url with
      | none => exact Or.inr (Or.inl ⟨url, rfl, hc⟩)
      | some p =>
        cases ht : h256FromStr args.tx_hash with
        | error e =>
          cases e
          exact Or.inr (Or.inr (Or.inl rfl))
        | ok tx =>
          cases hp : parseProof args.proof with
          | error e =>
            cases e
            exact Or.inr (Or.inr (Or.inr (Or.inl rfl)))
          | ok proof =>
            rcases hv : verify_receipt_proof ⟨p⟩ args.block tx proof with ⟨res, evs⟩
            cases res with
            | ok b =>
              exact absurd (by simp [mainModel, hu, hc, ht, hp, hv]) hne
            | error e =>
              exact Or.inr (Or.inr (Or.inr (Or.inr
                ⟨url, p, tx, proof, e, rfl, hc, rfl, rfl, by rw [hv]⟩)))

/-- A chain node that answers every query: root rep 0, receipt with empty
string rendering. -/
def okProvider : Provider :=
  ⟨fun _ => .ok (some (rep 0)), fun _ => .ok (some ⟨[]⟩)⟩

/-- Arguments with well-formed transaction hash and proof text (64 zero hex
digits each). -/
def argsC7 : Args := ⟨some ['u'], 0, zeros64, zeros64⟩

/-- An environment that builds `okProvider` for any URL. -/
def envC7 : Env := ⟨none, fun _ => some okProvider⟩

/-- Arguments with no RPC URL at all. -/
def argsBad : Args := ⟨none, 0, [], []⟩

/-- An environment with no ETH_RPC_URL and no reachable provider. -/
def envBad : Env := ⟨none, fun _ => none⟩

theorem C7_witness :
    argsC7.rpc_url.orElse (fun _ => envC7.eth_rpc_url) = some ['u'] ∧
    envC7.connect ['u'] = some okProvider ∧
    h256FromStr argsC7.tx_hash = .ok (rep 0) ∧
    parseProof argsC7.proof = .ok [rep 0] ∧
    (verify_receipt_proof ⟨okProvider⟩ argsC7.block (rep 0) [rep 0]).1 = .ok false ∧
    (mainModel argsC7 envC7).1 = .ok () ∧
    (mainModel argsBad envBad).1 ≠ .ok () ∧
    (argsBad.rpc_url.orElse (fun _ => envBad.eth_rpc_url) = none
      ∨ (∃ url, argsBad.rpc_url.orElse (fun _ => envBad.eth_rpc_url) = some url ∧
          envBad.connect url = none)
      ∨ h256FromStr argsBad.tx_hash = .error ()
      ∨ parseProof argsBad.proof = .error ()
      ∨ (∃ url p tx proof e,
          argsBad.rpc_url.orElse (fun _ => envBad.eth_rpc_url) = some url ∧
          envBad.connect url = some p ∧
          h256FromStr argsBad.tx_hash = .ok tx ∧
          parseProof argsBad.proof = .ok proof ∧
          (verify_receipt_proof ⟨p⟩ argsBad.block tx proof).1 = .error e)) := by
  have hfalse : (verify_receipt_proof ⟨okProvider⟩ argsC7.block (rep 0) [rep 0]).1 =
      .ok false := by rfl
  have hne : (mainModel argsBad envBad).1 ≠ .ok () := by
    intro h
    simp [mainModel, argsBad, envBad] at h
  exact ⟨rfl, rfl, rfl, rfl, hfalse,
    C7_false_verdict_is_success.1 argsC7 envC7 ['u'] okProvider (rep 0) [rep 0]
      rfl rfl rfl rfl hfalse,
    hne,
    C7_false_verdict_is_success.2 argsBad envBad hne⟩

/-- C10: the leaf handed to the Merkle verifier is the double hash — for
every successfully fetched receipt, verify_receipt_proof returns exactly
the verdict of verify_merkle_proof on the leaf
Keccak256(Keccak256(to_string receipt)) against the fetched root. -/
theorem C10_leaf_is_double_keccak :
    ∀ (v : MerkleVerifier) (bn : Nat) (tx : Hash256) (proof : List Hash256)
      (root : Hash256) (r : Receipt),
      v.provider.getBlock bn = .ok (some root) →
      v.provider.getTransactionReceipt tx = .ok (some r) →
      (verify_receipt_proof v bn tx proof).1 =
        .ok (verify_merkle_proof v (keccak256 (keccak256 r.to_string)) proof root) := by
  intro v bn tx proof root r hb hr
  simp [verify_receipt_proof, get_block_receipts_root, get_receipt, receipt_data, hb, hr]

/-- The receipt whose string rendering is empty. -/
def receiptEmpty : Receipt := ⟨[]⟩

/-- A chain node that answers every query: root rep 0, receipt receiptEmpty. -/
def fullProvider : Provider :=
  ⟨fun _ => .ok (some (rep 0)), fun _ => .ok (some receiptEmpty)⟩

/-- A verifier over `fullProvider`. -/
def fullVerifier : MerkleVerifier := ⟨fullProvider⟩

theorem C10_witness :
    fullVerifier.provider.getBlock 3 = .ok (some (rep 0)) ∧
    fullVerifier.provider.getTransactionReceipt (rep 2) = .ok (some receiptEmpty) ∧
    (verify_receipt_proof fullVerifier 3 (rep 2) []).1 =
      .ok (verify_merkle_proof fullVerifier (keccak256 (keccak256 receiptEmpty.to_string))
        [] (rep 0)) :=
  ⟨rfl, rfl, C10_leaf_is_double_keccak fullVerifier 3 (rep 2) [] (rep 0) receiptEmpty rfl rfl⟩

end EthReceiptVerifier
